import Mathlib

/-!
Verification of the return-reconciliation and caching core of the
fund-visualization dashboard.  The Python sources embedded here are
`components/realtime_heatmap.py`, `components/product_returns.py` and
`database/database.py`.  Monetary amounts are modelled as rationals,
wall-clock instants as natural-number seconds counted from a Monday
00:00 epoch (so weekday and time-of-day are total functions of the
instant, matching a local calendar without DST jumps).
-/

namespace FundViz

/-! ### Wall-clock model and trading hours (realtime_heatmap.py, lines 58-80) -/

/-- Weekday of an instant, 0 = Monday .. 6 = Sunday, as Python
`datetime.weekday()` reports it. -/
def weekday (t : ℕ) : ℕ := (t / 86400) % 7

/-- Seconds elapsed since local midnight of the instant. -/
def secondsOfDay (t : ℕ) : ℕ := t % 86400

/-- Embedding of `is_trading_hours` (realtime_heatmap.py lines 73-80):
weekday must be Mon-Fri and the local time must lie in [09:30, 15:00],
both bounds inclusive as Python compares `time` objects. -/
def is_trading_hours (t : ℕ) : Bool :=
  decide (weekday t < 5) && decide (34200 ≤ secondsOfDay t) && decide (secondsOfDay t ≤ 54000)

/-- Embedding of `get_time_slot` (realtime_heatmap.py lines 58-70): during
trading hours the minute is floored to a 15-minute boundary with seconds
zeroed, which on absolute seconds is flooring to a multiple of 900;
otherwise the instant is floored to the hour.  The slot is kept as the
flattened instant; the Python code renders it with a fixed injective
format string. -/
def get_time_slot (t : ℕ) : ℕ :=
  if is_trading_hours t then (t / 900) * 900 else (t / 3600) * 3600

/-! ### Return calculators
(realtime_heatmap.py `get_product_return_from_holdings` lines 1091-1211 and
`calculate_ruixing_return` lines 1345-1433).  Both functions reduce, once
the assets and the ledger rows for the day are in hand, to pure arithmetic
on four numbers: today and yesterday total assets and the summed inflow
and outflow amounts of the day.  `None` models the Python `return None`. -/

/-- Embedding of the arithmetic tail of `get_product_return_from_holdings`
(realtime_heatmap.py lines 1182-1205): `raw_return` is the asset change,
`adjusted_return` adds back outflow and removes inflow, a non-positive
yesterday asset yields `None`, and the division is by
`yesterday_total_asset - total_outflow + total_inflow`, not by the plain
yesterday asset. -/
def get_product_return_from_holdings
    (today_total_asset yesterday_total_asset total_inflow total_outflow : ℚ) : Option ℚ :=
  let raw_return := today_total_asset - yesterday_total_asset
  let adjusted_return := raw_return + total_outflow - total_inflow
  if yesterday_total_asset ≤ 0 then none
  else some (adjusted_return / (yesterday_total_asset - total_outflow + total_inflow) * 100)

/-- Embedding of the arithmetic tail of `calculate_ruixing_return`
(realtime_heatmap.py lines 1410-1427): same numerator as the holdings
variant but the division is by `yesterday_total_asset` itself. -/
def calculate_ruixing_return
    (today_total_asset yesterday_total_asset total_inflow total_outflow : ℚ) : Option ℚ :=
  let raw_return := today_total_asset - yesterday_total_asset
  let adjusted_return := raw_return + total_outflow - total_inflow
  if yesterday_total_asset ≤ 0 then none
  else some (adjusted_return / yesterday_total_asset * 100)

/-! ### Cache rows and `save_cache_data` (database/database.py lines 1206-1232) -/

/-- Payload stored in a cache row: the JSON-serialised result dictionary,
modelled as an association list.  The Python truthiness test `if result:`
on a dictionary corresponds to non-emptiness. -/
abbrev Payload := List (String × String)

/-- Row of the `heatmap_cache` table (database/database.py lines 328-340).
The `data_file_time` column is nullable in the schema, hence the
`Option`; `save_cache_data` always stores a value there. -/
structure CacheEntry where
  cache_key : String
  product_name : String
  data_source : String
  time_slot : ℕ
  cache_data : Payload
  data_file_time : Option ℕ
  created_at : ℕ
  expires_at : ℕ
  deriving Repr, DecidableEq

/-- Embedding of `save_cache_data` (database/database.py lines 1206-1232):
an `INSERT OR REPLACE` keyed on the unique `cache_key` column, with
`created_at` the write instant and `expires_at` set fifteen minutes
later unconditionally (line 1215 computes
`datetime.now() + timedelta(minutes=15)` on every path). -/
def save_cache_data (db : List CacheEntry) (cache_key product_name data_source : String)
    (time_slot : ℕ) (data : Payload) (data_file_time : ℕ) (now : ℕ) : List CacheEntry :=
  let entry : CacheEntry :=
    { cache_key := cache_key, product_name := product_name, data_source := data_source,
      time_slot := time_slot, cache_data := data, data_file_time := some data_file_time,
      created_at := now, expires_at := now + 15 * 60 }
  (db.filter fun e => !(e.cache_key == cache_key)) ++ [entry]

/-! ### Cash-flow ledger (database/database.py lines 288-326 and 968-1042)
The `cash_flows` table carries `UNIQUE(unit_name, date, flow_type)`, so the
`INSERT OR REPLACE` in `add_cash_flow` deletes the conflicting row, if any,
and appends the fresh one. -/

/-- Row of the `cash_flows` table. -/
structure CashFlowRow where
  unit_name : String
  date : String
  flow_type : String
  amount : ℚ
  note : String
  deriving Repr, DecidableEq

/-- Test matching the `UNIQUE(unit_name, date, flow_type)` key of the
`cash_flows` table. -/
def sameFlowKey (r : CashFlowRow) (u d ft : String) : Bool :=
  r.unit_name == u && r.date == d && r.flow_type == ft

/-- Key triple of a ledger row, for stating the at-most-one-row invariant. -/
def flowKey (r : CashFlowRow) : String × String × String :=
  (r.unit_name, r.date, r.flow_type)

/-- Embedding of `add_cash_flow` (database/database.py lines 968-984): an
`INSERT OR REPLACE` against the unique key, which removes the existing row
with the same (unit_name, date, flow_type) and inserts the new one. -/
def add_cash_flow (db : List CashFlowRow) (unit_name date flow_type : String)
    (amount : ℚ) (note : String) : List CashFlowRow :=
  (db.filter fun r => !(sameFlowKey r unit_name date flow_type)) ++
    [⟨unit_name, date, flow_type, amount, note⟩]

/-- Embedding of `delete_cash_flow` (database/database.py lines 1025-1042):
the rows matching all four of unit, date, type and amount are deleted and
the function returns `True` without consulting the affected row count; the
`False` branch is reachable only through a raised database exception, which
the pure embedding has no analogue of. -/
def delete_cash_flow (db : List CashFlowRow) (unit_name date flow_type : String)
    (amount : ℚ) : List CashFlowRow × Bool :=
  ((db.filter fun r => !(sameFlowKey r unit_name date flow_type && r.amount == amount)), true)

/-- Embedding of `get_cash_flow_by_date` (database/database.py lines
999-1023): summed inflow minus summed outflow for the unit and date. -/
def get_cash_flow_by_date (db : List CashFlowRow) (unit_name date : String) : ℚ :=
  ((db.filter fun r => sameFlowKey r unit_name date "inflow").map CashFlowRow.amount).sum -
    ((db.filter fun r => sameFlowKey r unit_name date "outflow").map CashFlowRow.amount).sum

/-! ### Cached-return lookup
(realtime_heatmap.py `should_use_cache` lines 112-133 and
`get_product_data_with_cache` lines 233-252, with `get_cache_data` from
database/database.py lines 1183-1204).  The helper
`get_latest_data_file_time` condenses the Source Locator report into the
freshest file instant, so the lookup is modelled against that instant as a
parameter; the realtime computation result is likewise a parameter, empty
on failure exactly as `calculate_product_data_realtime` returns `{}`. -/

/-- Embedding of `get_cache_key` (realtime_heatmap.py lines 83-85): the
f-string key over product, source and slot. -/
def get_cache_key (product_name data_source : String) (time_slot : ℕ) : String :=
  product_name ++ "_" ++ data_source ++ "_" ++ toString time_slot

/-- Embedding of `get_cache_data` (database/database.py lines 1183-1204):
the row under the unique key is returned only while `expires_at > now`,
projected to its payload, stored file instant and creation instant. -/
def get_cache_data (db : List CacheEntry) (key : String) (now : ℕ) :
    Option (Payload × Option ℕ × ℕ) :=
  match db.find? (fun e => e.cache_key == key && decide (now < e.expires_at)) with
  | some e => some (e.cache_data, e.data_file_time, e.created_at)
  | none => none

/-- Embedding of `should_use_cache` (realtime_heatmap.py lines 112-133):
a miss or an expired row refuses the cache; a stored file instant older
than the freshest file on disk refuses it; otherwise the payload is
served.  A row whose stored instant is `NULL` is served unconditionally,
but `save_cache_data` never writes such a row. -/
def should_use_cache (product_name data_source : String) (db : List CacheEntry)
    (now latest_file_time : ℕ) : Bool × Option Payload :=
  let time_slot := get_time_slot now
  let cache_key := get_cache_key product_name data_source time_slot
  match get_cache_data db cache_key now with
  | none => (false, none)
  | some (data, cache_file_time, _) =>
    match cache_file_time with
    | some cft => if latest_file_time > cft then (false, none) else (true, some data)
    | none => (true, some data)

/-- Embedding of `get_product_data_with_cache` (realtime_heatmap.py lines
233-252): serve the cached payload when `should_use_cache` accepts and the
payload is truthy; otherwise take the compute result and, only when it is
truthy, store it through `save_cache_data` with the freshest file instant
observed. -/
def get_product_data_with_cache (product_name data_source : String) (db : List CacheEntry)
    (now latest_file_time : ℕ) (compute : Payload) : Payload × List CacheEntry :=
  let probe := should_use_cache product_name data_source db now latest_file_time
  let hit := probe.1 && (match probe.2 with | some d => !d.isEmpty | none => false)
  if hit then (probe.2.getD [], db)
  else
    let result := compute
    if !result.isEmpty then
      let time_slot := get_time_slot now
      let cache_key := get_cache_key product_name data_source time_slot
      (result,
        save_cache_data db cache_key product_name data_source time_slot result
          latest_file_time now)
    else (result, db)

/-! ### String helpers for the Source Locator
The Python code manipulates filenames with `str.startswith`, `str.endswith`,
`str.replace(pat, "")`, `str.split("_")` and `"_".join`.  These are embedded
over `List Char` so that every definition reduces inside the kernel. -/

/-- Left-to-right, non-overlapping removal of every occurrence of `pat`,
as Python `s.replace(pat, "")` performs it.  The fuel argument is the
length of the scanned list, which bounds the recursion; every reachable
step consumes at least one character. -/
def removeOccsAux (pat : List Char) : ℕ → List Char → List Char
  | 0, s => s
  | _ + 1, [] => []
  | fuel + 1, c :: rest =>
    if pat ≠ [] ∧ pat.isPrefixOf (c :: rest) then
      removeOccsAux pat fuel (List.drop (pat.length - 1) rest)
    else c :: removeOccsAux pat fuel rest

/-- Embedding of Python `s.replace(pat, "")`. -/
def removeAllSub (pat s : String) : String :=
  ⟨removeOccsAux pat.data s.data.length s.data⟩

/-- Lexicographic code-point order on character lists, the order Python
and pandas compare strings with. -/
def charListLt : List Char → List Char → Bool
  | [], [] => false
  | [], _ :: _ => true
  | _ :: _, [] => false
  | a :: as, b :: bs =>
    if a.toNat < b.toNat then true
    else if b.toNat < a.toNat then false
    else charListLt as bs

/-- Code-point order on strings. -/
def strLt (a b : String) : Bool := charListLt a.data b.data

/-- Embedding of Python `s.startswith(pat)`. -/
def strStartsWith (pat s : String) : Bool := pat.data.isPrefixOf s.data

/-- Embedding of Python `s.endswith(pat)`. -/
def strEndsWith (pat s : String) : Bool := pat.data.isSuffixOf s.data

/-- Embedding of Python `s.split(sep)` for a one-character separator:
`"".split(sep)` is `[""]` and a trailing separator yields a final empty
piece, as in Python. -/
def splitOnChar (sep : Char) : List Char → List (List Char)
  | [] => [[]]
  | c :: rest =>
    let r := splitOnChar sep rest
    if c == sep then [] :: r
    else
      match r with
      | [] => [[c]]
      | h :: t => (c :: h) :: t

/-- Embedding of Python `"_".join(pieces)`. -/
def joinUnderscore : List (List Char) → List Char
  | [] => []
  | [x] => x
  | x :: y :: rest => x ++ '_' :: joinUnderscore (y :: rest)

/-- Value of an ASCII digit character. -/
def digitVal (c : Char) : ℕ := c.toNat - 48

/-- Gregorian leap-year test, as `datetime` validates dates. -/
def isLeapYear (y : ℕ) : Bool :=
  decide (y % 4 = 0) && (decide (y % 100 ≠ 0) || decide (y % 400 = 0))

/-- Day count of a month, for validating the embedded timestamp the way
`datetime.strptime` rejects impossible dates. -/
def daysInMonth (y mo : ℕ) : ℕ :=
  if mo = 2 then (if isLeapYear y then 29 else 28)
  else if mo = 4 ∨ mo = 6 ∨ mo = 9 ∨ mo = 11 then 30 else 31

/-- Embedding of `datetime.strptime(s, "%Y%m%d-%H%M%S")` on the canonical
zero-padded form the export files carry, flattened to a natural number
whose order agrees with the datetime order: `None` models the raised
`ValueError` for anything malformed or calendar-invalid. -/
def parseExportTimestamp (s : String) : Option ℕ :=
  match s.data with
  | [y1, y2, y3, y4, m1, m2, d1, d2, dash, h1, h2, mi1, mi2, s1, s2] =>
    if ([y1, y2, y3, y4, m1, m2, d1, d2, h1, h2, mi1, mi2, s1, s2].all Char.isDigit)
        && (dash == '-') then
      let y := ((digitVal y1 * 10 + digitVal y2) * 10 + digitVal y3) * 10 + digitVal y4
      let mo := digitVal m1 * 10 + digitVal m2
      let d := digitVal d1 * 10 + digitVal d2
      let h := digitVal h1 * 10 + digitVal h2
      let mi := digitVal mi1 * 10 + digitVal mi2
      let sec := digitVal s1 * 10 + digitVal s2
      if 1 ≤ y ∧ 1 ≤ mo ∧ mo ≤ 12 ∧ 1 ≤ d ∧ d ≤ daysInMonth y mo ∧ h ≤ 23 ∧ mi ≤ 59 ∧ sec ≤ 59
      then some (((((y * 100 + mo) * 100 + d) * 100 + h) * 100 + mi) * 100 + sec)
      else none
    else none
  | _ => none

/-! ### Source Locator (realtime_heatmap.py lines 377-473 and 1214-1259)
The filesystem is modelled as an optional listing of the base directory
(`none` when `os.path.exists` fails): each entry carries its name, whether
it is a directory, and the filenames `os.walk` would enumerate under it. -/

/-- Directory entry of the data-source root. -/
structure FSEntry where
  name : String
  isDir : Bool
  files : List String
  deriving Repr, DecidableEq

/-- Listing of the data-source root; `entries = none` models a base path
that does not exist. -/
structure FileSys where
  entries : Option (List FSEntry)
  deriving Repr, DecidableEq

/-- Python `f.isdigit() and len(f) == 8` on a folder name. -/
def isDateFolderName (s : String) : Bool :=
  s.data.all Char.isDigit && decide (s.data.length = 8)

/-- Filename filter of `get_latest_holding_files` (realtime_heatmap.py
lines 398-409): the simulation source accepts three export templates, the
live source only the original one; both require an .xlsx or .csv ending. -/
def holdingFileMatches (data_source f : String) : Bool :=
  if data_source == "仿真" then
    (strStartsWith "单元资产账户持仓导出" f || strStartsWith "单元账户层资产资产导出" f ||
      strStartsWith "单元账户层资产持仓导出" f) &&
      (strEndsWith ".xlsx" f || strEndsWith ".csv" f)
  else
    strStartsWith "单元资产账户持仓导出" f && (strEndsWith ".xlsx" f || strEndsWith ".csv" f)

/-- Filename dissection of `get_latest_holding_files` (realtime_heatmap.py
lines 414-446): strip the recognised template, split on the
underscores, keep the leading pieces as the product identifier and parse
the trailing piece as the embedded timestamp; any failure skips the file. -/
def parse_holding_filename (f : String) : Option (String × ℕ) :=
  let name_part :=
    if strStartsWith "单元账户层资产持仓导出" f then removeAllSub "单元账户层资产持仓导出_" f
    else if strStartsWith "单元账户层资产资产导出" f then removeAllSub "单元账户层资产资产导出_" f
    else removeAllSub "单元资产账户持仓导出-" (removeAllSub "单元资产账户持仓导出_" f)
  let parts := splitOnChar '_' name_part.data
  if parts.length ≥ 2 then
    let datetime_part : List Char := parts.getLastD []
    let product_identifier := String.mk (joinUnderscore parts.dropLast)
    if datetime_part.any (fun c => c == '-') then
      match parseExportTimestamp
          ⟨removeOccsAux ".csv".data datetime_part.length
            (removeOccsAux ".xlsx".data datetime_part.length datetime_part)⟩ with
      | some ts => some (product_identifier, ts)
      | none => none
    else none
  else none

/-- File record as `get_latest_holding_files` stores it per product; the
path is the walked filename (the directory components play no further
role in the Python code once the file is chosen). -/
structure HoldingFileRec where
  file_path : String
  timestamp : ℕ
  filename : String
  deriving Repr, DecidableEq

/-- Matched and parsed holding files of a date folder, in walk order. -/
def parsedHoldingFiles (data_source : String) (files : List String) :
    List (String × HoldingFileRec) :=
  (files.filter (holdingFileMatches data_source)).filterMap
    (fun f => (parse_holding_filename f).map (fun pt => (pt.1, ⟨f, pt.2, f⟩)))

/-- Product identifiers in first-appearance order, as the Python dict of
per-product buckets collects them. -/
def keysInOrder : List (String × HoldingFileRec) → List String
  | [] => []
  | (p, _) :: rest => p :: (keysInOrder rest).filter (fun q => !(q == p))

/-- Bucket of one product, in appearance order. -/
def recsFor (p : String) (l : List (String × HoldingFileRec)) : List HoldingFileRec :=
  l.filterMap (fun q => if q.1 == p then some q.2 else none)

/-- Step of Python `max(..., key=lambda x: x["timestamp"])`: keep the
current record unless the next one is strictly later. -/
def pickLater (best x : HoldingFileRec) : HoldingFileRec :=
  if best.timestamp < x.timestamp then x else best

/-- Python `max(files_list, key=lambda x: x["timestamp"])`: the first
record of maximal timestamp, `None` on the empty list. -/
def maxByTimestamp : List HoldingFileRec → Option HoldingFileRec
  | [] => none
  | r :: rs => some (rs.foldl pickLater r)

/-- Per-product latest files: the loop over `product_files.items()` of
realtime_heatmap.py lines 457-462. -/
def groupedLatest (parsed : List (String × HoldingFileRec)) : List (String × HoldingFileRec) :=
  (keysInOrder parsed).filterMap
    (fun p => (maxByTimestamp (recsFor p parsed)).map (fun r => (p, r)))

/-- Result dictionary of `get_latest_holding_files`; the Python code
stores only the chosen path per product, recoverable here as the
`file_path` field of the kept record. -/
structure HoldingFilesResult where
  latest_date : String
  files : List (String × HoldingFileRec)
  file_count : ℕ
  data_source : String
  deriving Repr, DecidableEq

/-- Embedding of `get_latest_holding_files` (realtime_heatmap.py lines
377-473): `none` models the empty-dict return for a missing root or an
empty set of 8-digit date folders; otherwise the lexicographically
largest date folder is scanned and the per-product latest files
selected. -/
def get_latest_holding_files (data_source : String) (fs : FileSys) : Option HoldingFilesResult :=
  match fs.entries with
  | none => none
  | some entries =>
    match entries.filter (fun e => isDateFolderName e.name && e.isDir) with
    | [] => none
    | d0 :: rest =>
      let latest := rest.foldl (fun cur x => if strLt cur.name x.name then x else cur) d0
      let parsed := parsedHoldingFiles data_source latest.files
      some { latest_date := latest.name, files := groupedLatest parsed,
             file_count := parsed.length, data_source := data_source }

/-- Template dissection of `get_latest_asset_data_by_folder`
(realtime_heatmap.py lines 1226-1238): the time part of a matching asset
export filename, `none` when no template matches. -/
def assetTimePart (data_source f : String) : Option String :=
  if data_source == "仿真" then
    if strStartsWith "单元账户层资产资产导出" f && strEndsWith ".xlsx" f then
      some (removeAllSub ".xlsx" (removeAllSub "单元账户层资产资产导出_" f))
    else if strStartsWith "单元资产账户资产导出" f && strEndsWith ".xlsx" f then
      some (removeAllSub ".xlsx" (removeAllSub "单元资产账户资产导出_" f))
    else none
  else
    if strStartsWith "单元资产账户资产导出" f && strEndsWith ".xlsx" f then
      some (removeAllSub ".xlsx" (removeAllSub "单元资产账户资产导出_" f))
    else none

/-- Embedding of `get_latest_asset_data_by_folder` (realtime_heatmap.py
lines 1214-1259) up to the file choice: `none` models both the missing
date folder (`os.walk` yields nothing) and the empty match set; the
Python code then reads the chosen file, which the aggregator section
models separately. -/
def get_latest_asset_data_by_folder (folder : Option (List String)) (data_source : String) :
    Option HoldingFileRec :=
  match folder with
  | none => none
  | some files =>
    let asset_files := files.filterMap (fun f =>
      (assetTimePart data_source f).bind (fun tp =>
        (parseExportTimestamp tp).map (fun ts => (⟨f, ts, f⟩ : HoldingFileRec))))
    maxByTimestamp asset_files

/-! ### Tabular parser and asset aggregator
(product_returns.py `read_total_assets_from_holding_file` lines 55-90,
`read_futures_assets_from_file` lines 157-189,
`combine_assets_and_futures_without_custody` lines 268-282, and
realtime_heatmap.py `read_holding_file` lines 476-533).  A parsed
spreadsheet is a header list plus rows of typed cells; numeric cell
content is carried by the `num` constructor, which is what
`pd.to_numeric(errors="coerce")` accepts, while text and blanks coerce to
the missing value. -/

/-- Cell of a parsed spreadsheet. -/
inductive Cell where
  | num (q : ℚ)
  | text (s : String)
  | blank
  deriving Repr, DecidableEq

/-- Parsed spreadsheet: header names and cell rows. -/
structure AssetTable where
  headers : List String
  rows : List (List Cell)
  deriving Repr, DecidableEq

/-- Python substring test `pat in s` over character lists. -/
def listContainsSub (pat : List Char) : List Char → Bool
  | [] => pat.isEmpty
  | c :: rest => pat.isPrefixOf (c :: rest) || listContainsSub pat rest

/-- Python substring test `pat in s`. -/
def strContainsSub (pat s : String) : Bool := listContainsSub pat.data s.data

/-- Pandas `astype(str)` on a cell: text passes through, numeric content
is rendered, and a missing value becomes the string nan — which is why
the later `dropna` on the name column never drops a row. -/
def cellToStr : Cell → String
  | .text s => s
  | .num q => toString q.num ++ "/" ++ toString q.den
  | .blank => "nan"

/-- Pandas `to_numeric(errors="coerce")` on a cell. -/
def cellToNum : Cell → Option ℚ
  | .num q => some q
  | _ => none

/-- Cell of a row at a column position. -/
def cellAt (row : List Cell) (i : ℕ) : Cell := row.getD i Cell.blank

/-- Column scan of `read_total_assets_from_holding_file` (lines 67-71)
and `read_futures_assets_from_file` (lines 166-170): the name column is
the last header containing the substring, the amount column the last
header equal to the exact name, with the substring arm taking precedence
within one header (`elif`). -/
def findAssetCols (namePat exactName : String) (headers : List String) :
    Option String × Option String :=
  headers.foldl (fun acc h =>
    if strContainsSub namePat h then (some h, acc.2)
    else if h == exactName then (acc.1, some h)
    else acc) (none, none)

/-- First position of a header name, as pandas column selection by name
resolves it for unique headers. -/
def colIdx (headers : List String) (name : String) : ℕ :=
  (headers.findIdx? (fun h => h == name)).getD 0

/-- Distinct strings in first-appearance order. -/
def distinctStrings : List String → List String
  | [] => []
  | s :: rest => s :: (distinctStrings rest).filter (fun q => !(q == s))

/-- Insertion into a sorted string list. -/
def insertSorted (s : String) : List String → List String
  | [] => [s]
  | x :: xs => if strLt s x then s :: x :: xs else x :: insertSorted s xs

/-- Lexicographic sort, as pandas `groupby` orders its keys. -/
def sortStrings (l : List String) : List String := l.foldr insertSorted []

/-- Summed amounts of all rows carrying a name. -/
def sumFor (n : String) (rows : List (String × ℚ)) : ℚ :=
  ((rows.filter (fun r => r.1 == n)).map Prod.snd).sum

/-- Pandas `groupby(name).agg(sum).reset_index()`: one row per distinct
name in sorted order, amounts summed. -/
def groupSumByName (rows : List (String × ℚ)) : List (String × ℚ) :=
  (sortStrings (distinctStrings (rows.map Prod.fst))).map (fun n => (n, sumFor n rows))

/-- Row cleaning of `read_total_assets_from_holding_file` (lines 80-84):
name cast to string, amount coerced, rows with uncoercible amounts
dropped, rows with an empty name dropped. -/
def cleanAssetRows (t : AssetTable) (pc ac : String) : List (String × ℚ) :=
  ((t.rows.map (fun row => (cellToStr (cellAt row (colIdx t.headers pc)),
      cellToNum (cellAt row (colIdx t.headers ac))))).filterMap
    (fun na => na.2.map (fun a => (na.1, a)))).filter (fun na => !(na.1 == ""))

/-- Shared body of the two asset readers: locate the columns, clean the
rows, group-sum per product; `none` models the `return None` when either
column is missing. -/
def readAssetColumn (namePat exactName : String) (t : AssetTable) :
    Option (List (String × ℚ)) :=
  match findAssetCols namePat exactName t.headers with
  | (some pc, some ac) => some (groupSumByName (cleanAssetRows t pc ac))
  | _ => none

/-- Embedding of `read_total_assets_from_holding_file` (product_returns.py
lines 55-90). -/
def read_total_assets_from_holding_file (t : AssetTable) : Option (List (String × ℚ)) :=
  readAssetColumn "产品名称" "总资产" t

/-- Embedding of `read_futures_assets_from_file` (product_returns.py
lines 157-189). -/
def read_futures_assets_from_file (t : AssetTable) : Option (List (String × ℚ)) :=
  readAssetColumn "产品名称" "市值权益" t

/-- Amount stored under a name, for row sets with unique names. -/
def lookupAmt (n : String) (l : List (String × ℚ)) : Option ℚ :=
  (l.find? (fun r => r.1 == n)).map Prod.snd

/-- Embedding of `combine_assets_and_futures_without_custody`
(product_returns.py lines 268-282): a missing side becomes the empty
table, the outer merge on the product name takes the sorted union of the
names, `fillna(0)` defaults the absent side to 0, and the true total
asset is the sum of the two sides. -/
def combine_assets_and_futures_without_custody
    (assets futures : Option (List (String × ℚ))) : List (String × ℚ) :=
  let a := assets.getD []
  let f := futures.getD []
  (sortStrings (distinctStrings (a.map Prod.fst ++ f.map Prod.fst))).map
    (fun n => (n, (lookupAmt n a).getD 0 + (lookupAmt n f).getD 0))

/-! ### Holdings-file parser (realtime_heatmap.py lines 476-533) -/

/-- Canonical columns `read_holding_file` requires (line 512). -/
def required_cols : List String :=
  ["product_name", "stock_code", "stock_name", "market_value", "change_pct"]

/-- One step of the header-mapping loop (lines 488-506): the first
substring family that matches and whose canonical name is still unused
wins; `used` collects the canonical names already assigned. -/
def canonTarget (used : List String) (col : String) : Option String :=
  if strContainsSub "产品名称" col && !(used.contains "product_name") then some "product_name"
  else if strContainsSub "证券代码" col && !(used.contains "stock_code") then some "stock_code"
  else if strContainsSub "证券名称" col && !(used.contains "stock_name") then some "stock_name"
  else if strContainsSub "持仓市值" col && !(used.contains "market_value") then some "market_value"
  else if (strContainsSub "涨跌幅" col || strContainsSub "当日涨跌幅" col)
      && !(used.contains "change_pct") then some "change_pct"
  else if strContainsSub "日期" col && !(used.contains "date") then some "date"
  else none

/-- Header mapping accumulated over the columns in order. -/
def buildColumnMapping (headers : List String) : List (String × String) :=
  (headers.foldl (fun acc col =>
    match canonTarget acc.2 col with
    | some tgt => ((col, tgt) :: acc.1, tgt :: acc.2)
    | none => acc) ([], [])).1

/-- Headers after `df.rename(columns=column_mapping)`. -/
def renamedHeaders (headers : List String) : List String :=
  headers.map (fun h => ((buildColumnMapping headers).lookup h).getD h)

/-- Required canonical columns absent after renaming (line 513). -/
def missingColumns (headers : List String) : List String :=
  required_cols.filter (fun c => !((renamedHeaders headers).contains c))

/-- Position of a canonical column after renaming. -/
def holdingColIdx (headers : List String) (c : String) : ℕ :=
  ((renamedHeaders headers).findIdx? (fun h => h == c)).getD 0

/-- Normalized holdings row after coercion. -/
structure HoldingRow where
  product_name : String
  stock_code : String
  stock_name : String
  market_value : ℚ
  change_pct : ℚ
  deriving Repr, DecidableEq

/-- Python `str.zfill(6)`. -/
def zfill6 (s : String) : String :=
  if s.data.length < 6 then ⟨List.replicate (6 - s.data.length) '0' ++ s.data⟩ else s

/-- Coercion of one raw row (lines 521-526): both numeric columns must
coerce, strings are cast with the stock code zero-filled; `none` is a row
that `dropna` removes. -/
def parsedHoldingRow (pi si ni mi ci : ℕ) (row : List Cell) : Option HoldingRow :=
  match cellToNum (cellAt row mi), cellToNum (cellAt row ci) with
  | some mv, some cp =>
    some { product_name := cellToStr (cellAt row pi),
           stock_code := zfill6 (cellToStr (cellAt row si)),
           stock_name := cellToStr (cellAt row ni),
           market_value := mv, change_pct := cp }
  | _, _ => none

/-- Embedding of `read_holding_file` (realtime_heatmap.py lines 476-533):
missing required columns produce the error result carrying the file name
and the missing canonical columns (the Python code emits them in a
warning and returns an empty frame); otherwise rows failing numeric
coercion are dropped and only rows with positive market value are
kept. -/
def read_holding_file (file_path : String) (t : AssetTable) :
    Except (String × List String) (List HoldingRow) :=
  let missing := missingColumns t.headers
  if missing.isEmpty then
    Except.ok ((t.rows.filterMap (parsedHoldingRow
        (holdingColIdx t.headers "product_name") (holdingColIdx t.headers "stock_code")
        (holdingColIdx t.headers "stock_name") (holdingColIdx t.headers "market_value")
        (holdingColIdx t.headers "change_pct"))).filter
      (fun row => decide (0 < row.market_value)))
  else Except.error (file_path, missing)

/-! ### Theorems for the return formula and its undefined case -/

/-- C1, as stated: false.  With today = 1,050,000, yesterday = 1,000,000
and a single inflow of 40,000, `get_product_return_from_holdings` divides
the adjusted gain of 10,000 by 1,040,000 and returns 25/26 percent, not
the 1.0 percent the claimed common formula demands. -/
theorem c1_counterexample :
    get_product_return_from_holdings 1050000 1000000 40000 0 = some (25 / 26) ∧
    get_product_return_from_holdings 1050000 1000000 40000 0 ≠ some 1 := by
  constructor
  · norm_num [get_product_return_from_holdings]
  · norm_num [get_product_return_from_holdings]

/-- C1 amended: for every positive yesterday asset, the ruixing variant
returns ((today - yesterday - net_flow) / yesterday) * 100 — in particular
1.0 percent on the example scenario — while `get_product_return_from_holdings`
returns the same numerator divided by `yesterday - outflow + inflow`. -/
theorem c1_return_formula
    (today yesterday inflow outflow : ℚ) (h : 0 < yesterday) :
    calculate_ruixing_return today yesterday inflow outflow
      = some ((today - yesterday - (inflow - outflow)) / yesterday * 100) ∧
    get_product_return_from_holdings today yesterday inflow outflow
      = some ((today - yesterday - (inflow - outflow)) / (yesterday - outflow + inflow) * 100) ∧
    calculate_ruixing_return 1050000 1000000 40000 0 = some 1 := by
  refine ⟨?_, ?_, by norm_num [calculate_ruixing_return]⟩
  · simp only [calculate_ruixing_return, if_neg (not_le.mpr h)]
    ring_nf
  · simp only [get_product_return_from_holdings, if_neg (not_le.mpr h)]
    ring_nf

/-- Witness for C1 amended at the example scenario. -/
theorem c1_return_formula_witness :
    calculate_ruixing_return 1050000 1000000 40000 0
      = some ((1050000 - 1000000 - (40000 - 0)) / 1000000 * 100) ∧
    get_product_return_from_holdings 1050000 1000000 40000 0
      = some ((1050000 - 1000000 - (40000 - 0)) / (1000000 - 0 + 40000) * 100) ∧
    calculate_ruixing_return 1050000 1000000 40000 0 = some 1 :=
  c1_return_formula 1050000 1000000 40000 0 (by norm_num)

/-- C6: whenever the yesterday asset is non-positive both return
calculators answer the `None` sentinel, guarding the division. -/
theorem c6_undefined_on_nonpositive_base
    (today yesterday inflow outflow : ℚ) (h : yesterday ≤ 0) :
    get_product_return_from_holdings today yesterday inflow outflow = none ∧
    calculate_ruixing_return today yesterday inflow outflow = none := by
  constructor
  · simp only [get_product_return_from_holdings, if_pos h]
  · simp only [calculate_ruixing_return, if_pos h]

/-- Witness for C6 at yesterday = 0. -/
theorem c6_undefined_on_nonpositive_base_witness :
    get_product_return_from_holdings 1050000 0 40000 0 = none ∧
    calculate_ruixing_return 1050000 0 40000 0 = none :=
  c6_undefined_on_nonpositive_base 1050000 0 40000 0 (by norm_num)

/-- C2, as stated: false.  Writing a cache row on a Saturday at 10:00
(instant 5 * 86400 + 36000 of the Monday epoch) is outside trading hours,
so the claim demands a 60-minute window, yet `save_cache_data` stamps
`created_at + 900` seconds. -/
theorem c2_counterexample :
    is_trading_hours (5 * 86400 + 36000) = false ∧
    (save_cache_data [] "k" "p" "s" 0 [("a", "b")] 0 (5 * 86400 + 36000)).all
      (fun e => e.expires_at == e.created_at +
        (if is_trading_hours e.created_at then 900 else 3600)) = false := by
  constructor
  · decide
  · decide

/-- C2 amended: every row written by `save_cache_data` satisfies
`expires_at = created_at + 900` seconds — a fixed 15-minute window
regardless of trading hours — and the invariant is preserved across
writes. -/
theorem c2_cache_expiry_window
    (db : List CacheEntry) (k p s : String) (slot : ℕ) (data : Payload)
    (dft now : ℕ) (h : ∀ e ∈ db, e.expires_at = e.created_at + 900) :
    ∀ e ∈ save_cache_data db k p s slot data dft now,
      e.expires_at = e.created_at + 900 := by
  intro e he
  simp only [save_cache_data, List.mem_append, List.mem_filter, List.mem_singleton] at he
  rcases he with ⟨hmem, -⟩ | rfl
  · exact h e hmem
  · rfl

/-- Witness for C2 amended: the row written into the empty cache at
instant 3600 expires at 4500. -/
theorem c2_cache_expiry_window_witness :
    (⟨"k", "p", "s", 0, [("a", "b")], some 7, 3600, 3600 + 15 * 60⟩ : CacheEntry).expires_at
      = (⟨"k", "p", "s", 0, [("a", "b")], some 7, 3600, 3600 + 15 * 60⟩ : CacheEntry).created_at
        + 900 :=
  c2_cache_expiry_window [] "k" "p" "s" 0 [("a", "b")] 7 3600 (by simp) _ (by decide)

/-- C4: the replace-style upsert of `add_cash_flow` preserves the
at-most-one-row-per-(unit, date, type) invariant, and adding an inflow of
100 then an inflow of 150 for the same unit and date leaves exactly the
one row carrying 150. -/
theorem c4_ledger_upsert (db : List CashFlowRow) (u d ft n1 n2 : String) (a : ℚ)
    (h : (db.map flowKey).Nodup) :
    ((add_cash_flow db u d ft a n1).map flowKey).Nodup ∧
    add_cash_flow (add_cash_flow [] u d "inflow" 100 n1) u d "inflow" 150 n2
      = [⟨u, d, "inflow", 150, n2⟩] := by
  constructor
  · have hnd : ((db.filter fun r => !(sameFlowKey r u d ft)).map flowKey).Nodup :=
      h.sublist ((List.filter_sublist db).map flowKey)
    simp only [add_cash_flow, List.map_append, List.map_cons, List.map_nil]
    rw [List.nodup_append]
    refine ⟨hnd, List.nodup_singleton _, ?_⟩
    intro k hk1 hk2
    simp only [List.mem_singleton] at hk2
    rcases List.mem_map.mp hk1 with ⟨r, hr, rfl⟩
    rcases List.mem_filter.mp hr with ⟨-, hkey⟩
    simp only [sameFlowKey, Bool.not_eq_eq_eq_not, Bool.not_true, Bool.and_eq_false_imp,
      Bool.and_eq_true, beq_iff_eq, flowKey, Prod.mk.injEq] at hkey hk2
    obtain ⟨h1, h2, h3⟩ := hk2
    simp [h1, h2, h3] at hkey
  · simp [add_cash_flow, sameFlowKey]

/-- Witness for C4: upsert into a ledger holding one unrelated row. -/
theorem c4_ledger_upsert_witness :
    ((add_cash_flow [⟨"B", "2025-01-02", "outflow", 7, ""⟩] "A" "2025-01-01" "inflow" 5 "n").map
      flowKey).Nodup ∧
    add_cash_flow (add_cash_flow [] "A" "2025-01-01" "inflow" 100 "x") "A" "2025-01-01" "inflow"
      150 "y" = [⟨"A", "2025-01-01", "inflow", 150, "y"⟩] :=
  c4_ledger_upsert [⟨"B", "2025-01-02", "outflow", 7, ""⟩] "A" "2025-01-01" "inflow" "x" "y" 5
    (by simp)

/-- C10: when no stored row matches the (unit, date, type, amount)
quadruple, `delete_cash_flow` leaves the ledger unchanged and still
reports `True`, so callers cannot tell a deletion from a no-op. -/
theorem c10_delete_noop_returns_ok (db : List CashFlowRow) (u d ft : String) (a : ℚ)
    (h : ∀ r ∈ db, (sameFlowKey r u d ft && r.amount == a) = false) :
    delete_cash_flow db u d ft a = (db, true) := by
  simp only [delete_cash_flow, Prod.mk.injEq, and_true]
  refine List.filter_eq_self.mpr ?_
  intro r hr
  simp [h r hr]

/-- Witness for C10: deleting a quadruple whose amount matches no row. -/
theorem c10_delete_noop_returns_ok_witness :
    delete_cash_flow [⟨"A", "2025-01-01", "inflow", 100, ""⟩] "A" "2025-01-01" "inflow" 50
      = ([⟨"A", "2025-01-01", "inflow", 100, ""⟩], true) :=
  c10_delete_noop_returns_ok [⟨"A", "2025-01-01", "inflow", 100, ""⟩] "A" "2025-01-01" "inflow"
    50 (by decide)

/-- C3: for a cache row reachable under the probed key and not yet
expired, a freshest-file instant strictly beyond the stored one forces the
compute path, and the cached payload is served only when no newer file
exists (and the payload is truthy). -/
theorem c3_cache_freshness (p ds : String) (db : List CacheEntry)
    (now latest cft c : ℕ) (data compute : Payload)
    (hget : get_cache_data db (get_cache_key p ds (get_time_slot now)) now
      = some (data, some cft, c)) :
    (cft < latest →
      (get_product_data_with_cache p ds db now latest compute).1 = compute) ∧
    (latest ≤ cft → data ≠ [] →
      (get_product_data_with_cache p ds db now latest compute).1 = data) := by
  constructor
  · intro hlt
    simp only [get_product_data_with_cache, should_use_cache, hget, gt_iff_lt, hlt, if_true,
      Bool.false_and, Bool.false_eq_true, if_false]
    split <;> rfl
  · intro hle hne
    simp only [get_product_data_with_cache, should_use_cache, hget, gt_iff_lt, not_lt.mpr hle,
      if_false, Bool.true_and]
    simp [hne]

/-- Witness for C3: a Monday 10:00 probe over a one-row cache whose stored
file instant 50 is beaten by a file at instant 60. -/
theorem c3_cache_freshness_witness :
    (get_product_data_with_cache "p" "s"
      [⟨"p_s_36000", "p", "s", 36000, [("k", "v")], some 50, 0, 999999⟩]
      36000 60 [("r", "1")]).1 = [("r", "1")] ∧
    (get_product_data_with_cache "p" "s"
      [⟨"p_s_36000", "p", "s", 36000, [("k", "v")], some 50, 0, 999999⟩]
      36000 40 [("r", "1")]).1 = [("k", "v")] :=
  ⟨(c3_cache_freshness "p" "s"
      [⟨"p_s_36000", "p", "s", 36000, [("k", "v")], some 50, 0, 999999⟩]
      36000 60 50 0 [("k", "v")] [("r", "1")] rfl).1 (by norm_num),
   (c3_cache_freshness "p" "s"
      [⟨"p_s_36000", "p", "s", 36000, [("k", "v")], some 50, 0, 999999⟩]
      36000 40 50 0 [("k", "v")] [("r", "1")] rfl).2 (by norm_num) (by simp)⟩

/-- C5: an empty compute result — the failure value of
`calculate_product_data_realtime` — is never written to the cache, and
every row of the cache after a lookup either predates the call or carries
a non-empty payload. -/
theorem c5_failed_compute_not_cached (p ds : String) (db : List CacheEntry)
    (now latest : ℕ) (compute : Payload) :
    (compute = [] → (get_product_data_with_cache p ds db now latest compute).2 = db) ∧
    (∀ e ∈ (get_product_data_with_cache p ds db now latest compute).2,
      e ∈ db ∨ e.cache_data ≠ []) := by
  constructor
  · intro h
    subst h
    simp only [get_product_data_with_cache, List.isEmpty_nil, Bool.not_true,
      Bool.false_eq_true, if_false]
    split <;> rfl
  · intro e he
    simp only [get_product_data_with_cache] at he
    split at he
    · exact Or.inl he
    · rcases hne : compute.isEmpty with _ | _
      · simp only [hne, Bool.not_false, if_true, save_cache_data] at he
        rcases List.mem_append.mp he with hmem | hmem
        · exact Or.inl (List.mem_filter.mp hmem).1
        · right
          rcases List.mem_singleton.mp hmem with rfl
          show compute ≠ []
          intro hc
          subst hc
          simp at hne
      · simp only [hne, Bool.not_true, Bool.false_eq_true, if_false] at he
        exact Or.inl he

/-- Witness for C5: a failed compute against the empty cache writes
nothing, and the row written by a successful compute has a non-empty
payload. -/
theorem c5_failed_compute_not_cached_witness :
    (get_product_data_with_cache "p" "s" [] 0 0 []).2 = [] ∧
    (⟨"p_s_0", "p", "s", 0, [("a", "b")], some 0, 0, 900⟩ ∈
        (get_product_data_with_cache "p" "s" [] 0 0 [("a", "b")]).2 →
      (⟨"p_s_0", "p", "s", 0, [("a", "b")], some 0, 0, 900⟩ : CacheEntry) ∈ ([] : List CacheEntry)
        ∨ ([("a", "b")] : Payload) ≠ []) :=
  ⟨(c5_failed_compute_not_cached "p" "s" [] 0 0 []).1 rfl,
   fun h => (c5_failed_compute_not_cached "p" "s" [] 0 0 [("a", "b")]).2 _ h⟩

/-- Folding `pickLater` returns the start value or a list element, never
drops below the start value, and dominates every element. -/
theorem pickLater_foldl_spec (rs : List HoldingFileRec) (b : HoldingFileRec) :
    (rs.foldl pickLater b = b ∨ rs.foldl pickLater b ∈ rs) ∧
    b.timestamp ≤ (rs.foldl pickLater b).timestamp ∧
    ∀ x ∈ rs, x.timestamp ≤ (rs.foldl pickLater b).timestamp := by
  induction rs generalizing b with
  | nil => simp
  | cons y ys ih =>
    simp only [List.foldl_cons]
    obtain ⟨hmem, hle, hall⟩ := ih (pickLater b y)
    have hb : b.timestamp ≤ (pickLater b y).timestamp := by
      simp only [pickLater]
      split <;> omega
    have hy : y.timestamp ≤ (pickLater b y).timestamp := by
      simp only [pickLater]
      split <;> omega
    refine ⟨?_, le_trans hb hle, ?_⟩
    · rcases hmem with h | h
      · rw [h]
        simp only [pickLater]
        split
        · exact Or.inr (List.mem_cons_self _ _)
        · exact Or.inl rfl
      · exact Or.inr (List.mem_cons_of_mem _ h)
    · intro x hx
      rcases List.mem_cons.mp hx with rfl | hx
      · exact le_trans hy hle
      · exact hall x hx

/-- Specification of `maxByTimestamp`: the chosen record is in the list
and its timestamp dominates every timestamp of the list. -/
theorem maxByTimestamp_spec (l : List HoldingFileRec) (r : HoldingFileRec)
    (h : maxByTimestamp l = some r) :
    r ∈ l ∧ ∀ x ∈ l, x.timestamp ≤ r.timestamp := by
  rcases l with _ | ⟨b, rs⟩
  · simp [maxByTimestamp] at h
  · simp only [maxByTimestamp, Option.some.injEq] at h
    subst h
    obtain ⟨hmem, hle, hall⟩ := pickLater_foldl_spec rs b
    constructor
    · rcases hmem with h | h
      · rw [h]
        exact List.mem_cons_self _ _
      · exact List.mem_cons_of_mem _ h
    · intro x hx
      rcases List.mem_cons.mp hx with rfl | hx
      · exact hle
      · exact hall x hx

/-- Specification of `groupedLatest`: a selected pair comes from the
parsed list and its timestamp dominates the whole bucket of its
product. -/
theorem groupedLatest_mem (parsed : List (String × HoldingFileRec)) (p : String)
    (r : HoldingFileRec) (h : (p, r) ∈ groupedLatest parsed) :
    (p, r) ∈ parsed ∧ ∀ q ∈ parsed, q.1 = p → q.2.timestamp ≤ r.timestamp := by
  simp only [groupedLatest, List.mem_filterMap] at h
  obtain ⟨q, hq, hopt⟩ := h
  rcases hmax : maxByTimestamp (recsFor q parsed) with _ | s
  · rw [hmax] at hopt
    simp at hopt
  · rw [hmax] at hopt
    simp only [Option.map_some', Option.some.injEq, Prod.mk.injEq] at hopt
    obtain ⟨rfl, rfl⟩ := hopt
    obtain ⟨hmem, hall⟩ := maxByTimestamp_spec _ _ hmax
    constructor
    · simp only [recsFor, List.mem_filterMap] at hmem
      obtain ⟨⟨a, b⟩, hab, hif⟩ := hmem
      by_cases hc : (a == q) = true
      · rw [if_pos hc] at hif
        injection hif with h2
        subst h2
        have h1 : a = q := by simpa using hc
        subst h1
        exact hab
      · rw [if_neg hc] at hif
        exact absurd hif (by simp)
    · intro q2 hq2 hq2p
      refine hall q2.2 ?_
      simp only [recsFor, List.mem_filterMap]
      exact ⟨q2, hq2, by simp [hq2p]⟩

/-- Membership in the parsed holding file list, from a matched and
successfully dissected filename. -/
theorem mem_parsedHoldingFiles (data_source f p : String) (ts : ℕ) (files : List String)
    (hf : f ∈ files) (hm : holdingFileMatches data_source f = true)
    (hp : parse_holding_filename f = some (p, ts)) :
    (p, (⟨f, ts, f⟩ : HoldingFileRec)) ∈ parsedHoldingFiles data_source files := by
  simp only [parsedHoldingFiles, List.mem_filterMap, List.mem_filter]
  exact ⟨f, ⟨hf, hm⟩, by rw [hp]; rfl⟩

/-- C7: a missing root directory yields the structured empty result; a
product file selected for the latest date folder comes from a matched
file of that folder and carries the maximum embedded timestamp of its
product; the asset-file selector likewise returns `none` for a missing
folder and otherwise dominates every matched asset file. -/
theorem c7_source_locator (data_source : String) :
    get_latest_holding_files data_source ⟨none⟩ = none ∧
    (∀ folderFiles p r, (p, r) ∈ groupedLatest (parsedHoldingFiles data_source folderFiles) →
      (p, r) ∈ parsedHoldingFiles data_source folderFiles ∧
      ∀ f ts, f ∈ folderFiles → holdingFileMatches data_source f = true →
        parse_holding_filename f = some (p, ts) → ts ≤ r.timestamp) ∧
    get_latest_asset_data_by_folder none data_source = none ∧
    (∀ folderFiles r, get_latest_asset_data_by_folder (some folderFiles) data_source = some r →
      ∀ f tp ts, f ∈ folderFiles → assetTimePart data_source f = some tp →
        parseExportTimestamp tp = some ts → ts ≤ r.timestamp) := by
  refine ⟨rfl, ?_, rfl, ?_⟩
  · intro folderFiles p r h
    obtain ⟨hmem, hall⟩ := groupedLatest_mem _ p r h
    refine ⟨hmem, ?_⟩
    intro f ts hf hm hp
    exact hall (p, ⟨f, ts, f⟩) (mem_parsedHoldingFiles data_source f p ts folderFiles hf hm hp)
      rfl
  · intro folderFiles r h
    simp only [get_latest_asset_data_by_folder] at h
    obtain ⟨-, hall⟩ := maxByTimestamp_spec _ _ h
    intro f tp ts hf htp hts
    refine hall ⟨f, ts, f⟩ ?_
    simp only [List.mem_filterMap]
    exact ⟨f, hf, by rw [htp]; simp [hts]⟩

/-- Witness for C7 on a two-file folder for one product and a two-file
asset folder. -/
theorem c7_source_locator_witness :
    get_latest_holding_files "实盘" ⟨none⟩ = none ∧
    (("A", (⟨"单元资产账户持仓导出_A_20250625-020000.xlsx", 20250625020000,
        "单元资产账户持仓导出_A_20250625-020000.xlsx"⟩ : HoldingFileRec)) ∈
        parsedHoldingFiles "实盘"
          ["单元资产账户持仓导出_A_20250625-010000.xlsx",
            "单元资产账户持仓导出_A_20250625-020000.xlsx"] ∧
      (20250625010000 : ℕ) ≤
        (⟨"单元资产账户持仓导出_A_20250625-020000.xlsx", 20250625020000,
          "单元资产账户持仓导出_A_20250625-020000.xlsx"⟩ : HoldingFileRec).timestamp) ∧
    get_latest_asset_data_by_folder none "实盘" = none ∧
    (20250625143000 : ℕ) ≤
      (⟨"单元资产账户资产导出_20250625-150000.xlsx", 20250625150000,
        "单元资产账户资产导出_20250625-150000.xlsx"⟩ : HoldingFileRec).timestamp := by
  have h := c7_source_locator "实盘"
  have h2 := h.2.1
    ["单元资产账户持仓导出_A_20250625-010000.xlsx", "单元资产账户持仓导出_A_20250625-020000.xlsx"]
    "A"
    ⟨"单元资产账户持仓导出_A_20250625-020000.xlsx", 20250625020000,
      "单元资产账户持仓导出_A_20250625-020000.xlsx"⟩
    (by decide)
  have h4 := h.2.2.2
    ["单元资产账户资产导出_20250625-143000.xlsx", "单元资产账户资产导出_20250625-150000.xlsx"]
    ⟨"单元资产账户资产导出_20250625-150000.xlsx", 20250625150000,
      "单元资产账户资产导出_20250625-150000.xlsx"⟩
    rfl "单元资产账户资产导出_20250625-143000.xlsx" "20250625-143000" 20250625143000
    (by decide) rfl rfl
  exact ⟨h.1, ⟨h2.1, h2.2 "单元资产账户持仓导出_A_20250625-010000.xlsx" 20250625010000
    (by decide) rfl rfl⟩, h.2.2.1, h4⟩

/-- Insertion keeps exactly the old elements plus the new one. -/
theorem mem_insertSorted (s x : String) (l : List String) :
    x ∈ insertSorted s l ↔ x = s ∨ x ∈ l := by
  induction l with
  | nil => simp [insertSorted]
  | cons y ys ih =>
    simp only [insertSorted]
    split
    · exact List.mem_cons
    · rw [List.mem_cons, ih, List.mem_cons]
      tauto

/-- Sorting keeps membership. -/
theorem mem_sortStrings (x : String) (l : List String) :
    x ∈ sortStrings l ↔ x ∈ l := by
  induction l with
  | nil => simp [sortStrings]
  | cons y ys ih =>
    simp only [sortStrings, List.foldr_cons] at *
    rw [mem_insertSorted, ih, List.mem_cons]

/-- Deduplication keeps membership. -/
theorem mem_distinctStrings (x : String) (l : List String) :
    x ∈ distinctStrings l ↔ x ∈ l := by
  induction l with
  | nil => simp [distinctStrings]
  | cons y ys ih =>
    simp only [distinctStrings, List.mem_cons, List.mem_filter, ih]
    by_cases hxy : x = y
    · simp [hxy]
    · simp [hxy]

/-- Membership in a name-indexed table of values. -/
theorem mem_map_pair (names : List String) (val : String → ℚ) (n : String) (v : ℚ) :
    (n, v) ∈ names.map (fun m => (m, val m)) ↔ n ∈ names ∧ v = val n := by
  rw [List.mem_map]
  constructor
  · rintro ⟨m, hm, heq⟩
    injection heq with h1 h2
    subst h1
    exact ⟨hm, h2.symm⟩
  · rintro ⟨hn, rfl⟩
    exact ⟨n, hn, rfl⟩

/-- Names of a row set versus its rows. -/
theorem mem_map_fst (l : List (String × ℚ)) (n : String) :
    n ∈ l.map Prod.fst ↔ ∃ v, (n, v) ∈ l := by
  rw [List.mem_map]
  constructor
  · rintro ⟨⟨a, b⟩, hab, rfl⟩
    exact ⟨b, hab⟩
  · rintro ⟨v, hv⟩
    exact ⟨(n, v), hv, rfl⟩

/-- C8: the combined table assigns every unit the equity amount plus the
futures amount with a missing side defaulting to 0, carries exactly the
units of either side, and each side is the group-sum of its cleaned file
rows, summing the monetary amounts of a unit that appears several
times. -/
theorem c8_asset_aggregation (ta tf : AssetTable) (A F : List (String × ℚ))
    (hA : read_total_assets_from_holding_file ta = some A)
    (hF : read_futures_assets_from_file tf = some F) :
    (∀ n v, (n, v) ∈ combine_assets_and_futures_without_custody (some A) (some F) →
      v = (lookupAmt n A).getD 0 + (lookupAmt n F).getD 0) ∧
    (∀ n, (∃ v, (n, v) ∈ combine_assets_and_futures_without_custody (some A) (some F)) ↔
      (∃ v, (n, v) ∈ A) ∨ (∃ v, (n, v) ∈ F)) ∧
    ((∃ pc ac, A = groupSumByName (cleanAssetRows ta pc ac)) ∧
      (∃ pc ac, F = groupSumByName (cleanAssetRows tf pc ac))) ∧
    (∀ rows n v, (n, v) ∈ groupSumByName rows → v = sumFor n rows) ∧
    (∀ rows n, (∃ v, (n, v) ∈ groupSumByName rows) ↔ n ∈ rows.map Prod.fst) := by
  refine ⟨?_, ?_, ?_, ?_, ?_⟩
  · intro n v hv
    simp only [combine_assets_and_futures_without_custody, Option.getD_some] at hv
    exact ((mem_map_pair _ _ n v).mp hv).2
  · intro n
    simp only [combine_assets_and_futures_without_custody, Option.getD_some]
    constructor
    · rintro ⟨v, hv⟩
      have := ((mem_map_pair _ _ n v).mp hv).1
      rw [mem_sortStrings, mem_distinctStrings, List.mem_append, mem_map_fst, mem_map_fst]
        at this
      exact this
    · intro hor
      refine ⟨(lookupAmt n A).getD 0 + (lookupAmt n F).getD 0, ?_⟩
      refine (mem_map_pair _ _ n _).mpr ⟨?_, rfl⟩
      rw [mem_sortStrings, mem_distinctStrings, List.mem_append, mem_map_fst, mem_map_fst]
      exact hor
  · constructor
    · unfold read_total_assets_from_holding_file readAssetColumn at hA
      rcases h : findAssetCols "产品名称" "总资产" ta.headers with ⟨_ | pc, _ | ac⟩ <;>
        rw [h] at hA
      · exact absurd hA (by simp)
      · exact absurd hA (by simp)
      · exact absurd hA (by simp)
      · injection hA with hA
        exact ⟨pc, ac, hA.symm⟩
    · unfold read_futures_assets_from_file readAssetColumn at hF
      rcases h : findAssetCols "产品名称" "市值权益" tf.headers with ⟨_ | pc, _ | ac⟩ <;>
        rw [h] at hF
      · exact absurd hF (by simp)
      · exact absurd hF (by simp)
      · exact absurd hF (by simp)
      · injection hF with hF
        exact ⟨pc, ac, hF.symm⟩
  · intro rows n v hv
    exact ((mem_map_pair _ _ n v).mp hv).2
  · intro rows n
    constructor
    · rintro ⟨v, hv⟩
      have := ((mem_map_pair _ _ n v).mp hv).1
      rwa [mem_sortStrings, mem_distinctStrings] at this
    · intro hn
      refine ⟨sumFor n rows, (mem_map_pair _ _ n _).mpr ⟨?_, rfl⟩⟩
      rwa [mem_sortStrings, mem_distinctStrings]

/-- Witness for C8: an equity file listing unit U1 twice (100 and 50) and
U2 once, a futures file listing U2. -/
theorem c8_asset_aggregation_witness :
    ((150 : ℚ) = (lookupAmt "U1" [("U1", 150), ("U2", 7)]).getD 0 +
      (lookupAmt "U1" [("U2", 3)]).getD 0) ∧
    (∃ v, (("U2", v) : String × ℚ) ∈ combine_assets_and_futures_without_custody
      (some [("U1", 150), ("U2", 7)]) (some [("U2", 3)])) ∧
    (∃ pc ac, [(("U1" : String), (150 : ℚ)), ("U2", 7)] = groupSumByName (cleanAssetRows
      ⟨["产品名称", "总资产"],
        [[.text "U1", .num 100], [.text "U1", .num 50], [.text "U2", .num 7]]⟩ pc ac)) ∧
    ((150 : ℚ) = sumFor "U1" [("U1", 100), ("U1", 50)]) := by
  have h := c8_asset_aggregation
    ⟨["产品名称", "总资产"], [[.text "U1", .num 100], [.text "U1", .num 50], [.text "U2", .num 7]]⟩
    ⟨["产品名称", "市值权益"], [[.text "U2", .num 3]]⟩
    [("U1", 150), ("U2", 7)] [("U2", 3)]
    (by
      simp [read_total_assets_from_holding_file, readAssetColumn, findAssetCols, strContainsSub,
        listContainsSub, groupSumByName, cleanAssetRows, sortStrings, insertSorted,
        distinctStrings, sumFor, cellToStr, cellToNum, cellAt, colIdx, strLt, charListLt]
      norm_num)
    (by
      simp [read_futures_assets_from_file, readAssetColumn, findAssetCols, strContainsSub,
        listContainsSub, groupSumByName, cleanAssetRows, sortStrings, insertSorted,
        distinctStrings, sumFor, cellToStr, cellToNum, cellAt, colIdx, strLt, charListLt])
  refine ⟨h.1 "U1" 150 ?_, (h.2.1 "U2").mpr (Or.inr ⟨3, by simp⟩), h.2.2.1.1, ?_⟩
  · simp [combine_assets_and_futures_without_custody, lookupAmt, sortStrings, insertSorted,
      distinctStrings, strLt, charListLt]
  · refine h.2.2.2.1 [("U1", 100), ("U1", 50)] "U1" 150 ?_
    simp [groupSumByName, sortStrings, insertSorted, distinctStrings, sumFor, strLt, charListLt]
    norm_num

/-- C9: a holdings file missing a required canonical column parses to the
error result naming the file and the missing columns; otherwise the
parse succeeds and a normalized row survives exactly when its raw row
coerces on both numeric columns and its market value is positive. -/
theorem c9_holding_reader (file_path : String) (t : AssetTable) :
    (missingColumns t.headers ≠ [] →
      read_holding_file file_path t = Except.error (file_path, missingColumns t.headers)) ∧
    ∀ rows, read_holding_file file_path t = Except.ok rows →
      missingColumns t.headers = [] ∧
      ∀ row, row ∈ rows ↔
        ((∃ r ∈ t.rows, parsedHoldingRow (holdingColIdx t.headers "product_name")
            (holdingColIdx t.headers "stock_code") (holdingColIdx t.headers "stock_name")
            (holdingColIdx t.headers "market_value") (holdingColIdx t.headers "change_pct") r
            = some row) ∧ 0 < row.market_value) := by
  constructor
  · intro hne
    have hfalse : (missingColumns t.headers).isEmpty = false := by
      cases h : missingColumns t.headers with
      | nil => exact absurd h hne
      | cons a as => rfl
    simp only [read_holding_file, hfalse, Bool.false_eq_true, if_false]
  · intro rows hok
    unfold read_holding_file at hok
    by_cases hm : (missingColumns t.headers).isEmpty = true
    · rw [if_pos hm] at hok
      injection hok with hok
      refine ⟨List.isEmpty_iff.mp hm, ?_⟩
      intro row
      subst hok
      simp only [List.mem_filter, List.mem_filterMap, decide_eq_true_eq]
    · rw [if_neg hm] at hok
      exact absurd hok (by simp)

/-- Witness for C9: a file with an unrecognizable header errors naming
all five required columns; a well-headed file keeps the coercible
positive row. -/
theorem c9_holding_reader_witness :
    read_holding_file "f" ⟨["foo"], []⟩ = Except.error ("f", missingColumns ["foo"]) ∧
    ((∃ r ∈ (⟨["产品名称", "证券代码", "证券名称", "持仓市值", "涨跌幅"],
        [[.text "P", .text "123", .text "N", .num 10, .num 1],
          [.text "P", .text "1", .text "N", .num 0, .num 1],
          [.text "P", .text "1", .text "N", .blank, .num 1]]⟩ : AssetTable).rows,
        parsedHoldingRow
          (holdingColIdx ["产品名称", "证券代码", "证券名称", "持仓市值", "涨跌幅"] "product_name")
          (holdingColIdx ["产品名称", "证券代码", "证券名称", "持仓市值", "涨跌幅"] "stock_code")
          (holdingColIdx ["产品名称", "证券代码", "证券名称", "持仓市值", "涨跌幅"] "stock_name")
          (holdingColIdx ["产品名称", "证券代码", "证券名称", "持仓市值", "涨跌幅"] "market_value")
          (holdingColIdx ["产品名称", "证券代码", "证券名称", "持仓市值", "涨跌幅"] "change_pct") r
          = some ⟨"P", "000123", "N", 10, 1⟩) ∧
      (0 : ℚ) < (⟨"P", "000123", "N", 10, 1⟩ : HoldingRow).market_value) := by
  constructor
  · exact (c9_holding_reader "f" ⟨["foo"], []⟩).1 (by decide)
  · have h := ((c9_holding_reader "g"
      ⟨["产品名称", "证券代码", "证券名称", "持仓市值", "涨跌幅"],
        [[.text "P", .text "123", .text "N", .num 10, .num 1],
          [.text "P", .text "1", .text "N", .num 0, .num 1],
          [.text "P", .text "1", .text "N", .blank, .num 1]]⟩).2
      [⟨"P", "000123", "N", 10, 1⟩] rfl).2 ⟨"P", "000123", "N", 10, 1⟩
    exact h.mp (by decide)

end FundViz
